import Mathlib

/-
Verification of the loki_logger batching-and-delivery engine.

Shallow embedding of the Go sources:
  - loki_logger.go        (raw-socket revision: prepareLogs, sendLogs, Write, Flush,
                           isConnAlive, checkConn)
  - unnamed/part_002      (HTTP-client revision: prepareLogs with severity buckets,
                           sendLogs with linear backoff, Write)
  - unnamed/part_004      (older raw revision: prepareLogs with full Split and a
                           len(parts) < 2 guard)

Go strings are modelled as Lean String; machine integers as Nat/Int (all
timestamp values fit in 64 bits); runtime panics (index out of range, nil
dereference) as Option with none = panic; time.Now() as an explicit Int
parameter (nanoseconds).
-/

/-! ## Go string primitives -/

/-- Model of Go strings.Split on a single-space separator, over char lists.
Never returns the empty list; splitting the empty string yields one empty part. -/
def splitSp : List Char → List (List Char)
  | [] => [[]]
  | c :: cs =>
    if c = ' ' then [] :: splitSp cs
    else
      match splitSp cs with
      | [] => [[c]]
      | t :: ts => (c :: t) :: ts

/-- Model of Go strings.Join with a single-space separator, over char lists. -/
def joinSp : List (List Char) → List Char
  | [] => []
  | [t] => t
  | t :: ts => t ++ ' ' :: joinSp ts

/-- Regroup a full split into at most three parts, joining the tail back with
spaces: this turns Split into SplitN(s, " ", 3). -/
def take3 : List (List Char) → List (List Char)
  | a :: b :: c :: rest => [a, b, joinSp (c :: rest)]
  | l => l

/-- Go strings.SplitN(s, " ", 3). -/
def goSplitN3 (s : String) : List String :=
  (take3 (splitSp s.data)).map String.mk

/-- Go strings.Split(s, " "). -/
def goSplitAll (s : String) : List String :=
  (splitSp s.data).map String.mk

/-- Go strings.Join(parts, " "). -/
def goJoin (l : List String) : String :=
  String.mk (joinSp (l.map String.data))

/-- Drop leading whitespace from a char list. -/
def trimLeftSp : List Char → List Char
  | [] => []
  | c :: cs => if c.isWhitespace then trimLeftSp cs else c :: cs

/-- Go strings.TrimSpace: drop leading and trailing whitespace. -/
def goTrimSpace (s : String) : String :=
  String.mk ((trimLeftSp ((trimLeftSp s.data).reverse)).reverse)

/-- Boolean prefix test on char lists. -/
def isPre : List Char → List Char → Bool
  | [], _ => true
  | _ :: _, [] => false
  | a :: as, b :: bs => a == b && isPre as bs

/-- Substring search: does pat occur in s (as a contiguous run)? -/
def containsSub (pat : List Char) : List Char → Bool
  | [] => pat.isEmpty
  | c :: rest => isPre pat (c :: rest) || containsSub pat rest

/-- Go strings.Contains(s, pat). -/
def goContains (s pat : String) : Bool :=
  containsSub pat.data s.data

/-- Remove the first occurrence of pat (nonoverlapping scan from the left). -/
def replaceFirstAux (pat : List Char) : List Char → List Char
  | [] => []
  | c :: rest =>
    if isPre pat (c :: rest) then List.drop pat.length (c :: rest)
    else c :: replaceFirstAux pat rest

/-- Go strings.Replace(s, pat, emptyString, 1). -/
def goReplaceFirst (s pat : String) : String :=
  String.mk (replaceFirstAux pat.data s.data)

/-! ## Timestamp parsing: Go time.ParseInLocation with layout 2006/01/02 15:04:05
in UTC, followed by UnixNano. The layout forces a 4-digit year and 2-digit
month, day, hour, minute, second with the literal separators; Go validates the
calendar ranges and rejects any leftover input. -/

def digitVal (c : Char) : Option Nat :=
  if c.isDigit then some (c.toNat - 48) else none

def num2 (a b : Char) : Option Nat := do
  let x ← digitVal a
  let y ← digitVal b
  pure (x * 10 + y)

def num4 (a b c d : Char) : Option Nat := do
  let x ← num2 a b
  let y ← num2 c d
  pure (x * 100 + y)

def isLeapYear (y : Nat) : Bool :=
  y % 4 == 0 && (y % 100 != 0 || y % 400 == 0)

def daysInMonth (y m : Nat) : Nat :=
  if m = 2 then (if isLeapYear y then 29 else 28)
  else if m = 4 ∨ m = 6 ∨ m = 9 ∨ m = 11 then 30
  else 31

/-- Days from 1970-01-01 to year/month/day of the proleptic Gregorian calendar
(civil-date algorithm, computed in Nat by shifting 400 years and removing the
146097-day shift at the end). -/
def daysFromCivil (y m d : Nat) : Int :=
  let y' := y + 400 - (if m ≤ 2 then 1 else 0)
  let era := y' / 400
  let yoe := y' % 400
  let mp := if m > 2 then m - 3 else m + 9
  let doy := (153 * mp + 2) / 5 + d - 1
  let doe := yoe * 365 + yoe / 4 - yoe / 100 + doy
  (era * 146097 + doe : Int) - 146097 - 719468

/-- Parse a string against the Go layout 2006/01/02 15:04:05 in UTC and return
UnixNano on success; none models a parse error. -/
def parseDT (s : String) : Option Int :=
  match s.data with
  | [y1, y2, y3, y4, a1, m1, m2, a2, d1, d2, a3, h1, h2, a4, i1, i2, a5, s1, s2] =>
    if a1 = '/' ∧ a2 = '/' ∧ a3 = ' ' ∧ a4 = ':' ∧ a5 = ':' then
      match num4 y1 y2 y3 y4, num2 m1 m2, num2 d1 d2,
            num2 h1 h2, num2 i1 i2, num2 s1 s2 with
      | some y, some mo, some d, some h, some mi, some sec =>
        if 1 ≤ mo ∧ mo ≤ 12 ∧ 1 ≤ d ∧ d ≤ daysInMonth y mo ∧ h ≤ 23 ∧ mi ≤ 59 ∧ sec ≤ 59 then
          some ((daysFromCivil y mo d * 86400 + ((h * 3600 + mi * 60 + sec : Nat) : Int))
                  * 1000000000)
        else none
      | _, _, _, _, _, _ => none
    else none
  | _ => none

/-! ## Batch formatter, loki_logger.go prepareLogs (per line)

Returns some (timestampText, message); none models an index-out-of-range panic.
now is time.Now().UnixNano() for this line. -/

def prepEntryMain (now : Int) (val : String) : Option (String × String) :=
  let parts := goSplitN3 val
  if parts.length < 3 then
    some (toString now, goJoin parts)
  else do
    let p0 ← parts[0]?
    let p1 ← parts[1]?
    let p2 ← parts[2]?
    match parseDT (p0 ++ " " ++ p1) with
    | none => some (toString now, goJoin parts)
    | some ns => some (toString ns, goTrimSpace p2)

/-! ## Batch formatter, unnamed/part_004 prepareLogs (per line)

Full Split on space, guard len(parts) < 2, message on success is
TrimSpace(Join(parts[2:], " ")). -/

def prepEntry004 (now : Int) (val : String) : Option (String × String) :=
  let parts := goSplitAll val
  if parts.length < 2 then
    some (toString now, goJoin parts)
  else do
    let p0 ← parts[0]?
    let p1 ← parts[1]?
    match parseDT (p0 ++ " " ++ p1) with
    | none => some (toString now, goJoin parts)
    | some ns => some (toString ns, goTrimSpace (goJoin (parts.drop 2)))

/-! ## Batch formatter, unnamed/part_002 prepareLogs (per line)

Severity extraction: sequential INFO / ERROR / WARN / DEBUG scans, each strip
acting on the current message; level starts at info and the INFO branch only
strips. parts[0] and parts[1] are indexed with no length guard, and parts[2]
is indexed whenever the timestamp parses. -/

def extractLevel (v : String) : String × String :=
  let v2 := if goContains v "INFO" then goReplaceFirst v "INFO " else v
  let p3 := if goContains v2 "ERROR" then ("error", goReplaceFirst v2 "ERROR ") else ("info", v2)
  let p4 := if goContains p3.2 "WARN" then ("warn", goReplaceFirst p3.2 "WARN ") else p3
  if goContains p4.2 "DEBUG" then ("debug", goReplaceFirst p4.2 "DEBUG ") else p4

def prepEntryHttp (now : Int) (val : String) : Option (String × String × String) := do
  let parts := goSplitN3 val
  let p0 ← parts[0]?
  let p1 ← parts[1]?
  let tsv ← (match parseDT (p0 ++ " " ++ p1) with
    | none => some (toString now, val)
    | some ns => do
        let p2 ← parts[2]?
        some (toString ns, goTrimSpace p2))
  let lv := extractLevel tsv.2
  some (lv.1, tsv.1, lv.2)

/-! ## Log sink: Write and Flush

loki_logger.go Write checks ctx.Done, appends, flushes at the batch-size
threshold; Flush is a no-op when the logger has no connection or an empty
buffer, otherwise it hands the buffer to prepareLogs and truncates it.
part_002 Write flushes inline with no connection guard. -/

structure WriteRes where
  logs : List String
  handoff : Option (List String)
  n : Nat
  err : Option String
deriving DecidableEq

def FlushMain (connPresent : Bool) (logs : List String) :
    List String × Option (List String) :=
  if connPresent = false ∨ logs = [] then (logs, none)
  else ([], some logs)

def WriteMain (cancelled : Bool) (batchSize : Nat) (connPresent : Bool)
    (logs : List String) (p : String) : WriteRes :=
  if cancelled then ⟨logs, none, 0, some "context cancelled"⟩
  else
    let logs1 := logs ++ [p]
    if batchSize ≤ logs1.length then
      let f := FlushMain connPresent logs1
      ⟨f.1, f.2, p.length, none⟩
    else ⟨logs1, none, p.length, none⟩

/-- part_002 prepareLogs over the whole buffer: formats every line in order;
none models the per-line index panic escaping. now stands for the per-line
time.Now() readings (the claims do not depend on its value). -/
def prepLogsHttp (now : Int) : List String → Option (List (String × String × String))
  | [] => some []
  | v :: vs => do
    let e ← prepEntryHttp now v
    let rest ← prepLogsHttp now vs
    pure (e :: rest)

/-- part_002 Write: the ctx.Done check short-circuits before any formatting;
the threshold branch calls prepareLogs synchronously inside the caller's
write, so a formatter panic there escapes to the caller (result none) instead
of returning (len p, nil). -/
def WriteHttp (cancelled : Bool) (batchSize : Nat) (now : Int)
    (logs : List String) (p : String) : Option WriteRes :=
  if cancelled then some ⟨logs, none, 0, some "context cancelled"⟩
  else
    let logs1 := logs ++ [p]
    if batchSize ≤ logs1.length then
      match prepLogsHttp now logs1 with
      | none => none
      | some _ => some ⟨[], some logs1, p.length, none⟩
    else some ⟨logs1, none, p.length, none⟩

/-! ## Liveness probe and reconnect, loki_logger.go isConnAlive / checkConn -/

inductive ReadResult where
  | ok
  | timeout
  | eof
  | reset
  | other
deriving DecidableEq

inductive ConnAfter where
  | kept
  | redialed
  | dialFailed
deriving DecidableEq

/-- isConnAlive: nil connection is dead; a failed SetReadDeadline is dead; a
timeout on the probe read is alive; otherwise the result is err == nil, so a
clean read is alive and EOF / reset / other errors are dead. -/
def isConnAlive (connPresent setDeadlineErr : Bool) (r : ReadResult) : Bool :=
  if connPresent = false then false
  else if setDeadlineErr then false
  else if r = ReadResult.timeout then true
  else decide (r = ReadResult.ok)

/-- checkConn: keep the handle when the probe says alive, otherwise dial a
fresh connection (dialOk abstracts the dial outcome). -/
def checkConn (connPresent setDeadlineErr : Bool) (r : ReadResult)
    (dialOk : Bool) : ConnAfter :=
  if isConnAlive connPresent setDeadlineErr r then ConnAfter.kept
  else if dialOk then ConnAfter.redialed else ConnAfter.dialFailed

/-! ## Delivery loop, loki_logger.go sendLogs (raw-socket revision)

for i := range RetryCount; i > 0 sleeps 2^i seconds; any failure of
checkConn, the request write, the status read or the status parse continues;
a status code in [200, 300) returns success immediately. The fuel argument
is the number of loop iterations still allowed. -/

inductive AttemptOutcome where
  | connFail
  | writeFail
  | statusReadFail
  | statusParseFail
  | code (n : Nat)
deriving DecidableEq

def isSucc2xx : AttemptOutcome → Bool
  | AttemptOutcome.code n => decide (200 ≤ n ∧ n < 300)
  | _ => false

structure LoopRes where
  attempts : Nat
  sleeps : List Nat
  success : Bool
deriving DecidableEq

def rawLoopAux (o : Nat → AttemptOutcome) : Nat → Nat → LoopRes
  | _, 0 => ⟨0, [], false⟩
  | i, fuel + 1 =>
    let sl : List Nat := if i = 0 then [] else [2 ^ i]
    if isSucc2xx (o i) then ⟨1, sl, true⟩
    else
      let r := rawLoopAux o (i + 1) fuel
      ⟨r.attempts + 1, sl ++ r.sleeps, r.success⟩

def sendRaw (o : Nat → AttemptOutcome) (retryCount : Nat) : LoopRes :=
  rawLoopAux o 0 retryCount

/-! ## Delivery loop, unnamed/part_002 sendLogs (HTTP-client revision)

for attempt := 1; attempt <= RetryCount: client.Do gives either a transport
error (resp = nil) or a status code; a code < 500 breaks with the body kept,
otherwise the body is closed and the failed attempt sleeps attempt seconds.
After the loop resp.StatusCode is read unconditionally: resp = none there is
the nil-pointer panic. -/

def isBreakCode : Option Nat → Bool
  | some n => decide (n < 500)
  | none => false

structure HLoopRes where
  attempts : Nat
  sleeps : List Nat
  resp : Option Nat
  broke : Bool
deriving DecidableEq

def httpLoopAux (o : Nat → Option Nat) : Nat → Nat → Option Nat → HLoopRes
  | _, 0, resp => ⟨0, [], resp, false⟩
  | a, fuel + 1, _ =>
    match o a with
    | some n =>
      if n < 500 then ⟨1, [], some n, true⟩
      else
        let r := httpLoopAux o (a + 1) fuel (some n)
        ⟨r.attempts + 1, a :: r.sleeps, r.resp, r.broke⟩
    | none =>
      let r := httpLoopAux o (a + 1) fuel none
      ⟨r.attempts + 1, a :: r.sleeps, r.resp, r.broke⟩

def sendHttp (o : Nat → Option Nat) (retryCount : Nat) : HLoopRes :=
  httpLoopAux o 1 retryCount none

/-- Outcome of part_002 sendLogs after the loop: none models the nil-pointer
panic on resp.StatusCode, some true is the success print, some false is the
diagnostic log-and-drop path. -/
def sendLogsHttpRes (o : Nat → Option Nat) (retryCount : Nat) : Option Bool :=
  match (sendHttp o retryCount).resp with
  | none => none
  | some n => some (decide (200 ≤ n ∧ n < 300))

/-! ## Outbound request headers -/

/-- The raw HTTP/1.1 request string built by loki_logger.go sendLogs; the body
is the gzip buffer and clen its length. -/
def rawRequest (path addr token : String) (clen : Nat) (body : String) : String :=
  "POST " ++ path ++ " HTTP/1.1\r\n" ++
  "Host: " ++ addr ++ "\r\n" ++
  "Authorization: Bearer " ++ token ++ "\r\n" ++
  "Content-Type: application/json\r\n" ++
  "Content-Length: " ++ toString clen ++ "\r\n" ++
  "Content-Encoding: gzip\r\n" ++
  "Connection: keep-alive" ++ "\r\n\r\n" ++ body

/-- Headers set by part_002 sendLogs on the managed HTTP request:
Content-Type always, Authorization only for a nonempty token, and no
Content-Encoding (that revision does not compress). -/
def httpHeaders (token : String) : List (String × String) :=
  [("Content-Type", "application/json")] ++
    (if token = "" then [] else [("Authorization", "Bearer " ++ token)])

/-! ## Concrete outcome schedules used by witnesses -/

def oW : Nat → AttemptOutcome :=
  fun j => if j = 0 then AttemptOutcome.connFail else AttemptOutcome.code 204

def ohW : Nat → Option Nat :=
  fun j => if j ≤ 1 then none else some 201
/-! ## Helper lemmas: split and join -/

theorem splitSp_ne_nil (cs : List Char) : splitSp cs ≠ [] := by
  induction cs with
  | nil => simp [splitSp]
  | cons c cs ih =>
    by_cases h : c = ' '
    · simp [splitSp, h]
    · simp only [splitSp, h, if_false]
      cases hs : splitSp cs with
      | nil => simp
      | cons t ts => simp

theorem joinSp_splitSp (cs : List Char) : joinSp (splitSp cs) = cs := by
  induction cs with
  | nil => rfl
  | cons c cs ih =>
    by_cases h : c = ' '
    · subst h
      simp only [splitSp, if_pos rfl]
      cases hs : splitSp cs with
      | nil => exact absurd hs (splitSp_ne_nil cs)
      | cons t ts =>
        show ([] : List Char) ++ ' ' :: joinSp (t :: ts) = ' ' :: cs
        rw [hs] at ih
        simp [ih]
    · simp only [splitSp, h, if_false]
      cases hs : splitSp cs with
      | nil => exact absurd hs (splitSp_ne_nil cs)
      | cons t ts =>
        rw [hs] at ih
        cases ts with
        | nil => show c :: t = c :: cs; rw [show joinSp [t] = t from rfl] at ih; rw [ih]
        | cons u us =>
          show (c :: t) ++ ' ' :: joinSp (u :: us) = c :: cs
          rw [show joinSp (t :: u :: us) = t ++ ' ' :: joinSp (u :: us) from rfl] at ih
          simp [← ih]

theorem joinSp_take3 (l : List (List Char)) : joinSp (take3 l) = joinSp l := by
  match l with
  | [] => rfl
  | [a] => rfl
  | [a, b] => rfl
  | a :: b :: c :: rest =>
    show joinSp [a, b, joinSp (c :: rest)] = joinSp (a :: b :: c :: rest)
    rfl

theorem goJoin_goSplitN3 (s : String) : goJoin (goSplitN3 s) = s := by
  show String.mk (joinSp (((take3 (splitSp s.data)).map String.mk).map String.data)) = s
  rw [List.map_map]
  rw [show ((String.data ∘ String.mk) : List Char → List Char) = id from rfl]
  rw [List.map_id, joinSp_take3, joinSp_splitSp]

theorem goJoin_goSplitAll (s : String) : goJoin (goSplitAll s) = s := by
  show String.mk (joinSp (((splitSp s.data).map String.mk).map String.data)) = s
  rw [List.map_map]
  rw [show ((String.data ∘ String.mk) : List Char → List Char) = id from rfl]
  rw [List.map_id, joinSp_splitSp]

/-! ## Helper lemmas: string append and substring search -/

theorem strDataAppend (a b : String) : (a ++ b).data = a.data ++ b.data := rfl

theorem strAppendAssoc (a b c : String) : (a ++ b) ++ c = a ++ (b ++ c) := by
  cases a with
  | mk as =>
    cases b with
    | mk bs =>
      cases c with
      | mk cs =>
        show String.mk ((as ++ bs) ++ cs) = String.mk (as ++ (bs ++ cs))
        rw [List.append_assoc]

theorem isPre_self_append (p t : List Char) : isPre p (p ++ t) = true := by
  induction p with
  | nil => rfl
  | cons a as ih => simp [isPre, ih]

theorem containsSub_self_append (p t : List Char) : containsSub p (p ++ t) = true := by
  cases p with
  | nil =>
    cases t with
    | nil => rfl
    | cons c cs => simp [containsSub, isPre]
  | cons a as =>
    show containsSub (a :: as) (a :: (as ++ t)) = true
    have h1 : isPre (a :: as) ((a :: as) ++ t) = true := isPre_self_append (a :: as) t
    simp only [containsSub, Bool.or_eq_true]
    left
    simpa using h1

theorem containsSub_append_left (p t : List Char) (xs : List Char)
    (h : containsSub p t = true) : containsSub p (xs ++ t) = true := by
  induction xs with
  | nil => simpa using h
  | cons c cs ih => simp [containsSub, ih]

theorem goContains_split (s pre pat suf : String)
    (h : s = pre ++ (pat ++ suf)) : goContains s pat = true := by
  subst h
  show containsSub pat.data (pre ++ (pat ++ suf)).data = true
  rw [strDataAppend, strDataAppend]
  exact containsSub_append_left _ _ _ (containsSub_self_append pat.data suf.data)

/-! ## Helper lemmas: delivery loops -/

theorem rawLoopAux_attempts_le (o : Nat → AttemptOutcome) :
    ∀ fuel i, (rawLoopAux o i fuel).attempts ≤ fuel := by
  intro fuel
  induction fuel with
  | zero => intro i; simp [rawLoopAux]
  | succ f ih =>
    intro i
    simp only [rawLoopAux]
    by_cases h : isSucc2xx (o i) = true
    · simp [h]
    · simp only [h, if_false]
      exact Nat.succ_le_succ (ih (i + 1))

theorem rawLoopAux_sleeps_from (o : Nat → AttemptOutcome) :
    ∀ fuel i, 1 ≤ i →
      (rawLoopAux o i fuel).sleeps =
        (List.range' i (rawLoopAux o i fuel).attempts).map (fun j => 2 ^ j) := by
  intro fuel
  induction fuel with
  | zero => intro i _; simp [rawLoopAux]
  | succ f ih =>
    intro i hi
    have hne : ¬ i = 0 := by omega
    simp only [rawLoopAux, hne, if_false]
    by_cases h : isSucc2xx (o i) = true
    · simp [h, List.range']
    · simp only [h, if_false]
      have := ih (i + 1) (by omega)
      simp [this, List.range']

theorem rawLoopAux_sleeps_zero (o : Nat → AttemptOutcome) (fuel : Nat) :
    (rawLoopAux o 0 fuel).sleeps =
      (List.range' 1 ((rawLoopAux o 0 fuel).attempts - 1)).map (fun j => 2 ^ j) := by
  cases fuel with
  | zero => simp [rawLoopAux]
  | succ f =>
    simp only [rawLoopAux, if_pos rfl]
    by_cases h : isSucc2xx (o 0) = true
    · simp [h, List.range']
    · simp only [h, if_false]
      have := rawLoopAux_sleeps_from o f 1 (by omega)
      simp [this]

theorem rawLoopAux_first_succ (o : Nat → AttemptOutcome) :
    ∀ k fuel i, k < fuel →
      (∀ j, j < k → isSucc2xx (o (i + j)) = false) →
      isSucc2xx (o (i + k)) = true →
      (rawLoopAux o i fuel).attempts = k + 1 ∧ (rawLoopAux o i fuel).success = true := by
  intro k
  induction k with
  | zero =>
    intro fuel i hf _ hs
    cases fuel with
    | zero => omega
    | succ f =>
      simp only [Nat.add_zero] at hs
      simp [rawLoopAux, hs]
  | succ k ih =>
    intro fuel i hf hpre hs
    cases fuel with
    | zero => omega
    | succ f =>
      have h0 : isSucc2xx (o i) = false := by
        have := hpre 0 (by omega)
        simpa using this
      simp only [rawLoopAux, h0, if_false, Bool.false_eq_true]
      have hrec := ih f (i + 1) (by omega)
        (fun j hj => by
          have := hpre (j + 1) (by omega)
          simpa [Nat.add_assoc, Nat.add_comm 1 j] using this)
        (by
          have : i + 1 + k = i + (k + 1) := by omega
          rw [this]
          exact hs)
      constructor
      · simp [hrec.1]
      · simp [hrec.2]

theorem chainLt_range' : ∀ k s, List.Chain' (· < ·) (List.range' s k) := by
  intro k
  induction k with
  | zero => intro s; simp [List.range']
  | succ n ih =>
    intro s
    cases n with
    | zero => simp [List.range']
    | succ m =>
      have h2 := ih (s + 1)
      simp only [List.range'] at h2 ⊢
      exact List.Chain'.cons (by omega) h2

theorem chainLt_map_pow (k s : Nat) :
    List.Chain' (· < ·) ((List.range' s k).map (fun j => 2 ^ j)) := by
  induction k generalizing s with
  | zero => simp [List.range']
  | succ n ih =>
    cases n with
    | zero => simp [List.range']
    | succ m =>
      have h2 := ih (s + 1)
      simp only [List.range', List.map] at h2 ⊢
      exact List.Chain'.cons (Nat.pow_lt_pow_right (by omega) (by omega)) h2

theorem httpLoopAux_attempts_le (o : Nat → Option Nat) :
    ∀ fuel a resp, (httpLoopAux o a fuel resp).attempts ≤ fuel := by
  intro fuel
  induction fuel with
  | zero => intro a resp; simp [httpLoopAux]
  | succ f ih =>
    intro a resp
    simp only [httpLoopAux]
    cases ho : o a with
    | none => exact Nat.succ_le_succ (ih (a + 1) none)
    | some n =>
      by_cases h : n < 500
      · simp [h]
      · simp only [h, if_false]
        exact Nat.succ_le_succ (ih (a + 1) (some n))

theorem httpLoopAux_sleeps (o : Nat → Option Nat) :
    ∀ fuel a resp,
      (httpLoopAux o a fuel resp).sleeps =
        List.range' a (httpLoopAux o a fuel resp).sleeps.length := by
  intro fuel
  induction fuel with
  | zero => intro a resp; simp [httpLoopAux, List.range']
  | succ f ih =>
    intro a resp
    simp only [httpLoopAux]
    cases ho : o a with
    | none =>
      have hrec := ih (a + 1) none
      show a :: (httpLoopAux o (a + 1) f none).sleeps =
        List.range' a (a :: (httpLoopAux o (a + 1) f none).sleeps).length
      simp only [List.length_cons]
      show a :: (httpLoopAux o (a + 1) f none).sleeps =
        a :: List.range' (a + 1) (httpLoopAux o (a + 1) f none).sleeps.length
      exact congrArg (List.cons a) hrec
    | some n =>
      by_cases h : n < 500
      · simp [h, List.range']
      · simp only [h, if_false]
        have hrec := ih (a + 1) (some n)
        show a :: (httpLoopAux o (a + 1) f (some n)).sleeps =
          List.range' a (a :: (httpLoopAux o (a + 1) f (some n)).sleeps).length
        simp only [List.length_cons]
        show a :: (httpLoopAux o (a + 1) f (some n)).sleeps =
          a :: List.range' (a + 1) (httpLoopAux o (a + 1) f (some n)).sleeps.length
        exact congrArg (List.cons a) hrec

theorem httpLoopAux_first_break (o : Nat → Option Nat) (n : Nat) :
    ∀ k fuel a resp, k < fuel →
      (∀ j, j < k → isBreakCode (o (a + j)) = false) →
      o (a + k) = some n → n < 500 →
      (httpLoopAux o a fuel resp).attempts = k + 1 ∧
      (httpLoopAux o a fuel resp).resp = some n ∧
      (httpLoopAux o a fuel resp).broke = true := by
  intro k
  induction k with
  | zero =>
    intro fuel a resp hf _ ho hn
    cases fuel with
    | zero => omega
    | succ f =>
      simp only [Nat.add_zero] at ho
      simp [httpLoopAux, ho, hn]
  | succ k ih =>
    intro fuel a resp hf hpre ho hn
    cases fuel with
    | zero => omega
    | succ f =>
      have h0 : isBreakCode (o a) = false := by
        have := hpre 0 (by omega)
        simpa using this
      have ho' : o (a + 1 + k) = some n := by
        have : a + 1 + k = a + (k + 1) := by omega
        rw [this]; exact ho
      cases hoa : o a with
      | none =>
        have hrec2 := ih f (a + 1) none (by omega)
          (fun j hj => by
            have := hpre (j + 1) (by omega)
            simpa [Nat.add_assoc, Nat.add_comm 1 j] using this)
          ho' hn
        simp only [httpLoopAux, hoa]
        exact ⟨by simp [hrec2.1], by simp [hrec2.2.1], by simp [hrec2.2.2]⟩
      | some m =>
        have hm : ¬ m < 500 := by
          have := h0
          simp [hoa, isBreakCode] at this
          omega
        have hrec2 := ih f (a + 1) (some m) (by omega)
          (fun j hj => by
            have := hpre (j + 1) (by omega)
            simpa [Nat.add_assoc, Nat.add_comm 1 j] using this)
          ho' hn
        simp only [httpLoopAux, hoa, hm, if_false]
        exact ⟨by simp [hrec2.1], by simp [hrec2.2.1], by simp [hrec2.2.2]⟩

/-! ## Claim theorems -/

/-- C1: with an established connection and batch-size threshold N >= 1, the
write that brings the buffer to length N flushes immediately, handing the
whole buffer (including the new line) to the formatter and resetting the
buffer to empty; and every completed Write leaves the buffer length strictly
below N, so the next write starts a fresh batch. -/
theorem write_batch_trigger (N : Nat) (logs : List String) (p : String) (c : Bool)
    (hN : 1 ≤ N) :
    (logs.length = N - 1 →
      WriteMain false N true logs p = ⟨[], some (logs ++ [p]), p.length, none⟩)
    ∧ (logs.length < N → ((WriteMain c N true logs p).logs).length < N) := by
  constructor
  · intro hlen
    have hl1 : (logs ++ [p]).length = N := by simp [hlen]; omega
    have hne : logs ++ [p] ≠ [] := by simp
    simp only [WriteMain, if_neg (by simp : ¬ (false : Bool) = true)]
    rw [if_pos (by omega : N ≤ (logs ++ [p]).length)]
    simp [FlushMain, hne]
  · intro hlt
    cases c with
    | true => simp [WriteMain]; omega
    | false =>
      simp only [WriteMain, if_neg (by simp : ¬ (false : Bool) = true)]
      by_cases hge : N ≤ (logs ++ [p]).length
      · rw [if_pos hge]
        have hne : logs ++ [p] ≠ [] := by simp
        simp [FlushMain, hne]
        omega
      · rw [if_neg hge]
        simp at hge ⊢
        omega

/-- Witness for C1 at N = 2, a one-line buffer and a fresh line. -/
theorem write_batch_trigger_witness :
    WriteMain false 2 true ["a"] "b" = ⟨[], some ["a", "b"], 1, none⟩ :=
  (write_batch_trigger 2 ["a"] "b" false (by decide)).1 rfl

/-- C2: the buffered line 2024/01/15 10:30:00 hello world is formatted with
timestamp equal to the decimal rendering of the UTC nanosecond epoch of
2024-01-15T10:30:00Z (1705314600000000000) and message hello world, for any
current wall-clock value. -/
theorem prepare_timestamp_roundtrip (now : Int) :
    prepEntryMain now "2024/01/15 10:30:00 hello world" =
      some ("1705314600000000000", "hello world") := rfl

/-- C6 counterexample: the claim that every write before cancellation returns
(len p, nil) fails on the part_002 revision: with BatchSize 1 an uncancelled
write of the single-token line hello triggers the synchronous threshold
flush, whose formatter indexes parts 1 out of range, so Write panics in the
caller instead of returning (5, nil). -/
theorem write_success_counterexample : WriteHttp false 1 0 [] "hello" = none := rfl

/-- C6 amended: Write returns an error exactly when the context is already
cancelled, returning 0 bytes and the cancellation error while buffering
nothing, and no delivery failure is ever returned to the caller. In the
raw-socket revision every uncancelled write returns (len p, nil). In the
part_002 revision the cancellation check short-circuits first, every write
that completes returns an error exactly when cancelled with byte count
len p otherwise, and an uncancelled write completes with (len p, nil)
whenever the threshold flush does not hit the formatter's unguarded-index
panic; a threshold write whose buffer holds a single-token line panics
inside Write instead of returning. -/
theorem write_error_only_on_cancel (c : Bool) (N : Nat) (conn : Bool) (now : Int)
    (logs : List String) (p : String) :
    ((WriteMain c N conn logs p).err = if c then some "context cancelled" else none)
    ∧ ((WriteMain c N conn logs p).n = if c then 0 else p.length)
    ∧ (c = true → (WriteMain c N conn logs p).logs = logs
        ∧ (WriteMain c N conn logs p).handoff = none)
    ∧ (c = true →
        WriteHttp c N now logs p = some ⟨logs, none, 0, some "context cancelled"⟩)
    ∧ (∀ r, WriteHttp c N now logs p = some r →
        r.err = (if c then some "context cancelled" else none)
        ∧ r.n = (if c then 0 else p.length))
    ∧ (c = false → prepLogsHttp now (logs ++ [p]) ≠ none →
        ∃ r, WriteHttp c N now logs p = some r ∧ r.n = p.length ∧ r.err = none) := by
  cases c with
  | true =>
    refine ⟨rfl, rfl, fun _ => ⟨rfl, rfl⟩, fun _ => rfl, ?_, by simp⟩
    intro r h
    rw [show WriteHttp true N now logs p
        = some ⟨logs, none, 0, some "context cancelled"⟩ from rfl] at h
    injection h with h2
    subst h2
    exact ⟨rfl, rfl⟩
  | false =>
    refine ⟨?_, ?_, by simp, by simp, ?_, ?_⟩
    · simp only [WriteMain, if_neg (by simp : ¬ (false : Bool) = true)]
      split <;> rfl
    · simp only [WriteMain, if_neg (by simp : ¬ (false : Bool) = true)]
      split <;> rfl
    · intro r h
      simp only [WriteHttp, if_neg (by simp : ¬ (false : Bool) = true)] at h
      by_cases hth : N ≤ (logs ++ [p]).length
      · rw [if_pos hth] at h
        cases hpl : prepLogsHttp now (logs ++ [p]) with
        | none =>
          rw [hpl] at h
          exact Option.noConfusion h
        | some es =>
          rw [hpl] at h
          injection h with h2
          subst h2
          exact ⟨rfl, rfl⟩
      · rw [if_neg hth] at h
        injection h with h2
        subst h2
        exact ⟨rfl, rfl⟩
    · intro _ hp
      simp only [WriteHttp, if_neg (by simp : ¬ (false : Bool) = true)]
      by_cases hth : N ≤ (logs ++ [p]).length
      · rw [if_pos hth]
        cases hpl : prepLogsHttp now (logs ++ [p]) with
        | none => exact absurd hpl hp
        | some es =>
          exact ⟨⟨[], some (logs ++ [p]), p.length, none⟩, rfl, rfl, rfl⟩
      · rw [if_neg hth]
        exact ⟨⟨logs ++ [p], none, p.length, none⟩, rfl, rfl, rfl⟩

/-- Witness for C6 amended: a cancelled write in both revisions and an
uncancelled threshold write whose lines format without panic. -/
theorem write_error_only_on_cancel_witness :
    (WriteMain true 2 true ["x"] "y").err = some "context cancelled"
    ∧ (WriteMain true 2 true ["x"] "y").logs = ["x"]
    ∧ WriteHttp true 2 0 ["x"] "y" = some ⟨["x"], none, 0, some "context cancelled"⟩
    ∧ (∃ r, WriteHttp false 2 0 ["not a date"] "x y z" = some r
        ∧ r.n = 5 ∧ r.err = none) :=
  ⟨(write_error_only_on_cancel true 2 true 0 ["x"] "y").1,
   ((write_error_only_on_cancel true 2 true 0 ["x"] "y").2.2.1 rfl).1,
   (write_error_only_on_cancel true 2 true 0 ["x"] "y").2.2.2.1 rfl,
   (write_error_only_on_cancel false 2 true 0 ["not a date"] "x y z").2.2.2.2.2
     rfl (by decide)⟩

/-- C9: the claim that no panic escapes delivery fails on the HTTP-client
revision; when every attempt ends in a transport error no response is ever
assigned, and the statuscode read after the loop dereferences a nil response.
With RetryCount 2 and both attempts failing, part_002 sendLogs panics. -/
theorem send_exhaustion_panics : sendLogsHttpRes (fun _ => none) 2 = none := rfl

/-- C10: the claim that every token index is guarded fails on the part_002
formatter; a single-token line makes prepareLogs read parts 1 out of range,
which is a runtime panic. -/
theorem formatter_unguarded_index_panics : prepEntryHttp 0 "hello" = none := rfl

/-- C3 counterexample: the claim says a clean probe read that returns data is
reported dead, but isConnAlive returns err == nil for non-timeout outcomes, so
a clean read on a live handle is reported alive and checkConn keeps the
handle instead of reconnecting. -/
theorem probe_clean_read_counterexample :
    isConnAlive true false ReadResult.ok = true
    ∧ checkConn true false ReadResult.ok true = ConnAfter.kept := by
  exact ⟨rfl, rfl⟩

/-- C3 amended: the probe reports alive exactly when the handle exists, the
deadline could be set, and the read either timed out or completed without
error; every error outcome other than a timeout (EOF, reset, other) is dead,
and a dead probe makes checkConn dial a fresh connection before the next
send. -/
theorem probe_alive_classification (c sde : Bool) (r : ReadResult) (d : Bool) :
    (isConnAlive c sde r = true ↔
      (c = true ∧ sde = false ∧ (r = ReadResult.timeout ∨ r = ReadResult.ok)))
    ∧ (isConnAlive c sde r = false → d = true →
        checkConn c sde r d = ConnAfter.redialed) := by
  cases c <;> cases sde <;> cases d <;> cases r <;> decide

/-- Witness for C3 amended: a reset probe on a live handle forces a redial. -/
theorem probe_alive_classification_witness :
    checkConn true false ReadResult.reset true = ConnAfter.redialed :=
  (probe_alive_classification true false ReadResult.reset true).2 rfl rfl

/-- C7: in the severity-extracting revision, the line
2024/01/15 10:30:00 ERROR disk full is bucketed under level error with the
marker stripped from the message; and any message containing none of the
markers INFO, ERROR, WARN, DEBUG keeps the default level info and is left
unchanged. -/
theorem severity_bucketing (v : String) :
    prepEntryHttp 7 "2024/01/15 10:30:00 ERROR disk full" =
      some ("error", "1705314600000000000", "disk full")
    ∧ (goContains v "INFO" = false → goContains v "ERROR" = false →
        goContains v "WARN" = false → goContains v "DEBUG" = false →
        extractLevel v = ("info", v)) := by
  constructor
  · rfl
  · intro h1 h2 h3 h4
    simp [extractLevel, h1, h2, h3, h4]

/-- Witness for C7 at a concrete marker-free message. -/
theorem severity_bucketing_witness :
    extractLevel "all good here" = ("info", "all good here") :=
  (severity_bucketing "all good here").2 rfl rfl rfl rfl

/-- C4 counterexample: in the part_004 formatter a two-token line whose tokens
parse as a date-time (fewer than three whitespace-delimited tokens) does not
get the current wall-clock timestamp or the full original line: with now = 5
it gets the parsed epoch and an empty message. -/
theorem formatter_fallback_counterexample :
    prepEntry004 5 "2024/01/15 10:30:00" = some ("1705314600000000000", "")
    ∧ ("1705314600000000000" : String) ≠ toString (5 : Int)
    ∧ ("" : String) ≠ "2024/01/15 10:30:00" := by
  refine ⟨rfl, by decide, by decide⟩

/-- C4 amended: the claim holds as stated for the SplitN-based formatter of
loki_logger.go: a line with fewer than three tokens, and a line whose first
two tokens fail to parse, gets the current wall-clock timestamp and the full
original line as the message. In the part_004 full-split revision the same
holds for lines with fewer than two tokens and for parse failures, but a
two-token line that parses keeps the parsed timestamp and an empty message. -/
theorem formatter_fallback (now : Int) (val a b c2 : String) :
    ((goSplitN3 val).length < 3 → prepEntryMain now val = some (toString now, val))
    ∧ (goSplitN3 val = [a, b, c2] → parseDT (a ++ " " ++ b) = none →
        prepEntryMain now val = some (toString now, val))
    ∧ ((goSplitAll val).length < 2 → prepEntry004 now val = some (toString now, val))
    ∧ ((goSplitAll val)[0]? = some a → (goSplitAll val)[1]? = some b →
        parseDT (a ++ " " ++ b) = none →
        prepEntry004 now val = some (toString now, val)) := by
  refine ⟨?_, ?_, ?_, ?_⟩
  · intro h
    simp only [prepEntryMain]
    rw [if_pos h, goJoin_goSplitN3]
  · intro h hp
    simp only [prepEntryMain]
    rw [if_neg (by simp [h]), h]
    show (match parseDT (a ++ " " ++ b) with
      | none => some (toString now, goJoin [a, b, c2])
      | some ns => some (toString ns, goTrimSpace c2)) = some (toString now, val)
    rw [hp, ← h, goJoin_goSplitN3]
  · intro h
    simp only [prepEntry004]
    rw [if_pos h, goJoin_goSplitAll]
  · intro h0 h1 hp
    have hlen : 1 < (goSplitAll val).length := by
      rcases List.getElem?_eq_some.mp h1 with ⟨hl, _⟩
      exact hl
    simp only [prepEntry004]
    rw [if_neg (by omega), h0, h1]
    show (match parseDT (a ++ " " ++ b) with
      | none => some (toString now, goJoin (goSplitAll val))
      | some ns => some (toString ns, goTrimSpace (goJoin ((goSplitAll val).drop 2)))) =
        some (toString now, val)
    rw [hp, goJoin_goSplitAll]

/-- Witness for C4 amended: a one-token line and a parse-failing line in the
main formatter. -/
theorem formatter_fallback_witness :
    prepEntryMain 3 "short" = some ("3", "short")
    ∧ prepEntryMain 3 "not a date" = some ("3", "not a date") :=
  ⟨(formatter_fallback 3 "short" "" "" "").1 (by decide),
   (formatter_fallback 3 "not a date" "not" "a" "date").2.1 rfl rfl⟩

/-- C8 counterexample: with an empty access credential the raw-socket request
still carries an Authorization header, so the header is not omitted when the
credential is empty as the claim requires. -/
theorem headers_empty_token_counterexample :
    goContains (rawRequest "/loki/api/v1/push" "localhost:3100" "" 2 "{}")
      "Authorization: Bearer " = true := by decide

/-- C8 amended: every outbound request carries Content-Type application/json
in both revisions; Content-Encoding gzip appears exactly in the raw-socket
revision, which always compresses, and never in the HTTP-client revision,
which never compresses; the Authorization header is present exactly when the
credential is nonempty in the HTTP-client revision, while the raw-socket
revision sends it unconditionally, with an empty bearer token when no
credential is configured. -/
theorem request_headers (path addr token : String) (clen : Nat) (body : String) :
    goContains (rawRequest path addr token clen body)
      "Content-Type: application/json\r\n" = true
    ∧ goContains (rawRequest path addr token clen body)
      "Content-Encoding: gzip\r\n" = true
    ∧ goContains (rawRequest path addr token clen body)
      "Authorization: Bearer " = true
    ∧ ("Content-Type", "application/json") ∈ httpHeaders token
    ∧ ((∃ v, ("Authorization", v) ∈ httpHeaders token) ↔ token ≠ "")
    ∧ (∀ v, ("Content-Encoding", v) ∉ httpHeaders token) := by
  refine ⟨?_, ?_, ?_, ?_, ?_, ?_⟩
  · apply goContains_split _
      ("POST " ++ path ++ " HTTP/1.1\r\n" ++ "Host: " ++ addr ++ "\r\n" ++
        "Authorization: Bearer " ++ token ++ "\r\n")
      _
      ("Content-Length: " ++ toString clen ++ "\r\n" ++ "Content-Encoding: gzip\r\n" ++
        "Connection: keep-alive" ++ "\r\n\r\n" ++ body)
    simp only [rawRequest, strAppendAssoc]
  · apply goContains_split _
      ("POST " ++ path ++ " HTTP/1.1\r\n" ++ "Host: " ++ addr ++ "\r\n" ++
        "Authorization: Bearer " ++ token ++ "\r\n" ++
        "Content-Type: application/json\r\n" ++
        "Content-Length: " ++ toString clen ++ "\r\n")
      _
      ("Connection: keep-alive" ++ "\r\n\r\n" ++ body)
    simp only [rawRequest, strAppendAssoc]
  · apply goContains_split _
      ("POST " ++ path ++ " HTTP/1.1\r\n" ++ "Host: " ++ addr ++ "\r\n")
      _
      (token ++ "\r\n" ++ "Content-Type: application/json\r\n" ++
        "Content-Length: " ++ toString clen ++ "\r\n" ++ "Content-Encoding: gzip\r\n" ++
        "Connection: keep-alive" ++ "\r\n\r\n" ++ body)
    simp only [rawRequest, strAppendAssoc]
  · simp [httpHeaders]
  · constructor
    · rintro ⟨v, hv⟩
      intro he
      simp [httpHeaders, he] at hv
    · intro hne
      exact ⟨"Bearer " ++ token, by simp [httpHeaders, hne]⟩
  · intro v
    by_cases he : token = "" <;> simp [httpHeaders, he]

/-- Witness for C8 amended at a concrete nonempty credential. -/
theorem request_headers_witness :
    goContains (rawRequest "/p" "h:3100" "tok" 3 "zz")
      "Content-Type: application/json\r\n" = true
    ∧ (∃ v, ("Authorization", v) ∈ httpHeaders "tok") :=
  ⟨(request_headers "/p" "h:3100" "tok" 3 "zz").1,
   (request_headers "/p" "h:3100" "tok" 3 "zz").2.2.2.2.1.mpr (by decide)⟩

/-- C5: each delivery performs at most RetryCount attempts. In the raw-socket
revision the sleeps are exactly 2 to the power i seconds before 0-indexed
attempt i for i from 1 on, hence strictly increasing, and a status in
[200, 300) at the first reachable attempt ends the loop immediately as
success. In the HTTP-client revision the sleeps are the strictly increasing
sequence 1, 2, 3, ... seconds, and a status in [200, 300) likewise ends the
loop immediately and the delivery reports success. -/
theorem retry_backoff (o : Nat → AttemptOutcome) (oh : Nat → Option Nat)
    (R k n kh nh : Nat) :
    (sendRaw o R).attempts ≤ R
    ∧ (sendRaw o R).sleeps =
        (List.range' 1 ((sendRaw o R).attempts - 1)).map (fun j => 2 ^ j)
    ∧ List.Chain' (· < ·) (sendRaw o R).sleeps
    ∧ (k < R → (∀ j, j < k → isSucc2xx (o j) = false) →
        o k = AttemptOutcome.code n → 200 ≤ n → n < 300 →
        (sendRaw o R).attempts = k + 1 ∧ (sendRaw o R).success = true)
    ∧ (sendHttp oh R).attempts ≤ R
    ∧ (sendHttp oh R).sleeps = List.range' 1 (sendHttp oh R).sleeps.length
    ∧ List.Chain' (· < ·) (sendHttp oh R).sleeps
    ∧ (kh < R → (∀ j, j < kh → isBreakCode (oh (1 + j)) = false) →
        oh (1 + kh) = some nh → 200 ≤ nh → nh < 300 →
        (sendHttp oh R).attempts = kh + 1 ∧ sendLogsHttpRes oh R = some true) := by
  refine ⟨rawLoopAux_attempts_le o R 0, rawLoopAux_sleeps_zero o R, ?_, ?_,
    httpLoopAux_attempts_le oh R 1 none, httpLoopAux_sleeps oh R 1 none, ?_, ?_⟩
  · rw [show (sendRaw o R).sleeps = (rawLoopAux o 0 R).sleeps from rfl,
      rawLoopAux_sleeps_zero o R]
    exact chainLt_map_pow _ _
  · intro hk hpre ho h2 h3
    have hsucc : isSucc2xx (o (0 + k)) = true := by
      simp only [Nat.zero_add, ho, isSucc2xx]
      exact decide_eq_true ⟨h2, h3⟩
    exact rawLoopAux_first_succ o k R 0 hk (fun j hj => by simpa using hpre j hj) hsucc
  · rw [show (sendHttp oh R).sleeps = (httpLoopAux oh 1 R none).sleeps from rfl,
      httpLoopAux_sleeps oh R 1 none]
    exact chainLt_range' _ _
  · intro hk hpre ho h2 h3
    have h5 : nh < 500 := by omega
    have hres := httpLoopAux_first_break oh nh kh R 1 none hk hpre ho h5
    refine ⟨hres.1, ?_⟩
    show (match (sendHttp oh R).resp with
      | none => none
      | some m => some (decide (200 ≤ m ∧ m < 300))) = some true
    rw [show (sendHttp oh R).resp = (httpLoopAux oh 1 R none).resp from rfl, hres.2.1]
    show some (decide (200 ≤ nh ∧ nh < 300)) = some true
    rw [decide_eq_true (show 200 ≤ nh ∧ nh < 300 from ⟨h2, h3⟩)]

/-- Witness for C5: raw schedule failing once then returning 204; HTTP
schedule failing once then returning 201. -/
theorem retry_backoff_witness :
    ((sendRaw oW 3).attempts = 2 ∧ (sendRaw oW 3).success = true)
    ∧ ((sendHttp ohW 3).attempts = 2 ∧ sendLogsHttpRes ohW 3 = some true) :=
  ⟨(retry_backoff oW ohW 3 1 204 1 201).2.2.2.1 (by decide) (by decide) rfl
      (by decide) (by decide),
   (retry_backoff oW ohW 3 1 204 1 201).2.2.2.2.2.2.2 (by decide) (by decide) rfl
      (by decide) (by decide)⟩
